import Mathlib

/-!
Verification development for the MKCYCLES Tally-import pipeline.

The TypeScript sources are shallowly embedded: JS numbers are modelled as
rationals (ℚ), JS `Date` values as integer timestamps (seconds on the
proleptic Gregorian calendar, which is an order- and equality-faithful
model of the millisecond epoch values JS uses), strings as `String` /
`List Char`, fallible operations as `Option`.
-/

namespace MkCycles

/-! ## JS number helpers -/

/-- Model of JS `Math.round`: round half toward +∞ (`Math.round (-0.5) = 0`). -/
def jsRound (x : ℚ) : ℤ := ⌊x + 1/2⌋

/-- Model of `Math.round(x * 1000) / 1000` (3-decimal rounding). -/
def round3 (x : ℚ) : ℚ := (jsRound (x * 1000) : ℚ) / 1000

/-- Model of `Math.round(x * 100) / 100` (2-decimal rounding). -/
def round2 (x : ℚ) : ℚ := (jsRound (x * 100) : ℚ) / 100

theorem jsRound_le (x : ℚ) : (jsRound x : ℚ) ≤ x + 1/2 := Int.floor_le _

theorem lt_jsRound (x : ℚ) : x - 1/2 < (jsRound x : ℚ) := by
  have h := Int.lt_floor_add_one (x + 1/2)
  have : (jsRound x : ℚ) = (⌊x + 1/2⌋ : ℚ) := rfl
  rw [this]
  linarith

/-! ## JS Date model

A JS `Date` is a point in time; comparisons between dates compare the
underlying numeric timestamp.  We model a date as an integer timestamp
(seconds), computed from calendar components by the standard
days-from-civil conversion, which reproduces the constructor's
normalization of out-of-range day/month arguments (e.g. April 31 =
May 1) and the order and equality of real JS timestamps. -/

abbrev JSDate := Int

/-- Days since 1970-01-01 of the civil date `(y, m, d)` with `m ∈ [1,12]`;
linear in `d`, so out-of-range days roll over exactly as in JS. -/
def daysFromCivil (y m d : Int) : Int :=
  let y2 := y - (if m ≤ 2 then 1 else 0)
  let era := y2.fdiv 400
  let yoe := y2 - era * 400
  let doy := (153 * (m + (if 2 < m then -3 else 9)) + 2).fdiv 5 + d - 1
  let doe := yoe * 365 + yoe.fdiv 4 - yoe.fdiv 100 + doy
  era * 146097 + doe - 719468

/-- Model of `new Date(year, month, day, h, mi, s)` (month 0-based, with JS
two-digit-year adjustment and rollover of out-of-range components). -/
def jsMkDate (year month day h mi s : Int) : JSDate :=
  let y := if 0 ≤ year ∧ year ≤ 99 then 1900 + year else year
  let y2 := y + month.fdiv 12
  let m2 := month.emod 12 + 1
  daysFromCivil y2 m2 day * 86400 + h * 3600 + mi * 60 + s

/-- Model of `Date.prototype.toISOString`: an injective rendering of the
timestamp (only injectivity is observable through the voucher id). -/
def dateISO (t : JSDate) : String := toString t

/-! ## Canonical data model (types/canonical.ts) -/

structure CanonicalBillAllocation where
  billRef : String
  billType : String
  amount : ℚ
  dueDate : Option JSDate
  deriving Repr, DecidableEq

structure CanonicalVoucherLine where
  ledgerName : Option String
  stockItemName : Option String
  isDeemedPositive : Bool
  isPartyLedger : Bool
  amount : ℚ
  actualQty : Option ℚ
  billedQty : Option ℚ
  unit : Option String
  rate : Option ℚ
  isTaxLine : Option Bool
  taxType : Option String
  billAllocations : List CanonicalBillAllocation
  deriving Repr, DecidableEq

inductive VoucherType where
  | Sales | Purchase | Receipt | Payment | Journal | Contra
  | DebitNote | CreditNote | SalesOrder | PurchaseOrder
  | DeliveryNote | ReceiptNote | RejectionIn | RejectionOut
  | StockJournal | Other
  deriving Repr, DecidableEq

structure CanonicalVoucher where
  id : String
  voucherNumber : String
  voucherType : VoucherType
  date : JSDate
  effectiveDate : JSDate
  partyName : Option String
  amount : ℚ
  narration : Option String
  gstin : Option String
  placeOfSupply : Option String
  irnNumber : Option String
  isOptional : Bool
  isCancelled : Bool
  isPostDated : Bool
  isVoid : Bool
  isDeleted : Bool
  lines : List CanonicalVoucherLine
  deriving Repr, DecidableEq

structure CanonicalStockItem where
  name : String
  nameNormalized : String
  group : String
  baseUnit : String
  alternateUnit : Option String
  alternateConversion : Option ℚ
  hsn : Option String
  gstRate : Option ℚ
  openingQty : ℚ
  openingValue : ℚ
  openingRate : ℚ
  openingFYYear : Int
  deriving Repr, DecidableEq

/-! ## engine/financial.ts -/

structure FYBounds where
  start : JSDate
  «end» : JSDate
  deriving Repr, DecidableEq

/-- `getFYBounds`: April 1 00:00 of the start year to March 31 23:59:59. -/
def getFYBounds (fyStartYear : Int) : FYBounds :=
  { start := jsMkDate fyStartYear 3 1 0 0 0
    «end» := jsMkDate (fyStartYear + 1) 2 31 23 59 59 }

/-- `getFYFromDate` applied to a date with the given (0-based) month and
full year: April onwards is the current FY, Jan–March the previous. -/
def getFYFromDateYM (fullYear month : Int) : Int :=
  if 3 ≤ month then fullYear else fullYear - 1

/-- `getCurrentFYStartYear()`; the current wall-clock date is passed in
explicitly as its (fullYear, 0-based month) components. -/
def getCurrentFYStartYear (nowFullYear nowMonth : Int) : Int :=
  getFYFromDateYM nowFullYear nowMonth

/-! ## engine/inventory.ts -/

structure InventoryPeriod where
  itemName : String
  unit : String
  periodStart : JSDate
  periodEnd : JSDate
  openingQty : ℚ
  inwardQty : ℚ
  outwardQty : ℚ
  closingQty : ℚ
  inwardVoucherCount : Nat
  outwardVoucherCount : Nat
  deriving Repr, DecidableEq

/-- The keep-condition of the `effectiveVouchers` filter in
`computeItemInventory` (`new Date()` passed in as `now`). -/
def isEffectiveVoucher (now : JSDate) (v : CanonicalVoucher) : Bool :=
  !v.isOptional && !v.isCancelled && !v.isVoid && !v.isDeleted &&
    !(v.isPostDated && decide (now < v.date))

/-- The inner per-line accumulation of the opening-quantity loop. -/
def openingLineStep (itemName : String) (a : ℚ) (line : CanonicalVoucherLine) : ℚ :=
  if line.stockItemName ≠ some itemName then a
  else
    match line.actualQty with
    | none => a
    | some q =>
      if q = 0 then a
      else if line.isDeemedPositive then a + q else a - q

/-- The opening-quantity loop of `computeItemInventory` (steps 1–4). -/
def inventoryOpeningRaw (item : CanonicalStockItem) (effective : List CanonicalVoucher)
    (fyStart periodStart : JSDate) : ℚ :=
  effective.foldl
    (fun acc v =>
      if v.date < fyStart then acc
      else if periodStart ≤ v.date then acc
      else v.lines.foldl (openingLineStep item.name) acc)
    item.openingQty

structure InOutState where
  inward : ℚ
  outward : ℚ
  inwardVoucherIds : List String
  outwardVoucherIds : List String
  deriving Repr, DecidableEq

/-- Model of `Set.prototype.add` on a list of distinct elements. -/
def setAdd (l : List String) (x : String) : List String :=
  if x ∈ l then l else l ++ [x]

/-- The inner per-line accumulation of the inward/outward loop. -/
def inOutLineStep (itemName : String) (vid : String) (st : InOutState)
    (line : CanonicalVoucherLine) : InOutState :=
  if line.stockItemName ≠ some itemName then st
  else
    match line.actualQty with
    | none => st
    | some q =>
      if q = 0 then st
      else if line.isDeemedPositive then
        { st with inward := st.inward + q,
                  inwardVoucherIds := setAdd st.inwardVoucherIds vid }
      else
        { st with outward := st.outward + q,
                  outwardVoucherIds := setAdd st.outwardVoucherIds vid }

/-- The inward/outward loop of `computeItemInventory` (steps 5–7). -/
def inventoryInOut (item : CanonicalStockItem) (effective : List CanonicalVoucher)
    (periodStart periodEnd : JSDate) : InOutState :=
  effective.foldl
    (fun st v =>
      if v.date < periodStart then st
      else if periodEnd < v.date then st
      else v.lines.foldl (inOutLineStep item.name v.id) st)
    { inward := 0, outward := 0, inwardVoucherIds := [], outwardVoucherIds := [] }

/-- `computeItemInventory` from engine/inventory.ts; `now` is the value of
`new Date()` in the post-dated filter. -/
def computeItemInventory (item : CanonicalStockItem) (vouchers : List CanonicalVoucher)
    (fyStartYear : Int) (now : JSDate) (periodStart periodEnd : JSDate) : InventoryPeriod :=
  let fyBounds := getFYBounds fyStartYear
  let effectiveVouchers := vouchers.filter (isEffectiveVoucher now)
  let openingQty := inventoryOpeningRaw item effectiveVouchers fyBounds.start periodStart
  let io := inventoryInOut item effectiveVouchers periodStart periodEnd
  { itemName := item.name
    unit := item.baseUnit
    periodStart := periodStart
    periodEnd := periodEnd
    openingQty := round3 openingQty
    inwardQty := round3 io.inward
    outwardQty := round3 io.outward
    closingQty := round3 (openingQty + io.inward - io.outward)
    inwardVoucherCount := io.inwardVoucherIds.length
    outwardVoucherCount := io.outwardVoucherIds.length }

/-- `validateInventory` closing-mismatch check for one period (the warning
fires exactly when this is `true`). -/
def closingMismatch (p : InventoryPeriod) : Bool :=
  decide ((1 : ℚ)/1000 < |p.openingQty + p.inwardQty - p.outwardQty - p.closingQty|)

/-! ## C1: rounding identity of the four period fields -/

theorem round3_combo (o i w : ℚ) :
    |round3 o + round3 i - round3 w - round3 (o + i - w)| ≤ 1/1000 := by
  have hA1 := jsRound_le (o * 1000)
  have hA2 := lt_jsRound (o * 1000)
  have hB1 := jsRound_le (i * 1000)
  have hB2 := lt_jsRound (i * 1000)
  have hC1 := jsRound_le (w * 1000)
  have hC2 := lt_jsRound (w * 1000)
  have hD1 := jsRound_le ((o + i - w) * 1000)
  have hD2 := lt_jsRound ((o + i - w) * 1000)
  set A := jsRound (o * 1000) with hA
  set B := jsRound (i * 1000) with hB
  set C := jsRound (w * 1000) with hC
  set D := jsRound ((o + i - w) * 1000) with hD
  have hS : ((A + B - C - D : ℤ) : ℚ) < 2 := by push_cast; linarith
  have hS2 : (-2 : ℚ) < ((A + B - C - D : ℤ) : ℚ) := by push_cast; linarith
  have hZ1 : (A + B - C - D : ℤ) < 2 := by exact_mod_cast hS
  have hZ2 : (-2 : ℤ) < (A + B - C - D : ℤ) := by exact_mod_cast hS2
  have habs : |((A + B - C - D : ℤ) : ℚ)| ≤ 1 := by
    rw [abs_le]
    constructor
    · have : (-1 : ℤ) ≤ A + B - C - D := by omega
      exact_mod_cast this
    · have : (A + B - C - D : ℤ) ≤ 1 := by omega
      exact_mod_cast this
  have hexpr : round3 o + round3 i - round3 w - round3 (o + i - w)
      = ((A + B - C - D : ℤ) : ℚ) / 1000 := by
    unfold round3
    push_cast
    ring
  rw [hexpr, abs_div]
  have h1000 : |(1000 : ℚ)| = 1000 := by norm_num
  rw [h1000]
  rw [div_le_div_iff₀ (by norm_num) (by norm_num)]
  linarith

/-- C1: for every inventory period returned by `computeItemInventory`, the
four rounded quantities satisfy
`|openingQty + inwardQty − outwardQty − closingQty| ≤ 0.001`. -/
theorem C1_period_rounding_identity (item : CanonicalStockItem)
    (vouchers : List CanonicalVoucher) (fyStartYear : Int)
    (now periodStart periodEnd : JSDate) :
    |(computeItemInventory item vouchers fyStartYear now periodStart periodEnd).openingQty
      + (computeItemInventory item vouchers fyStartYear now periodStart periodEnd).inwardQty
      - (computeItemInventory item vouchers fyStartYear now periodStart periodEnd).outwardQty
      - (computeItemInventory item vouchers fyStartYear now periodStart periodEnd).closingQty|
      ≤ 1/1000 := by
  simp only [computeItemInventory]
  exact round3_combo _ _ _

/-! ## C2: characterization of the period opening quantity

The following `spec*` definitions follow the specification's words
("replay every effective voucher dated in `[fiscalYearStart, periodStart)`
whose lines reference this item, accumulating signed `actualQty` using
`isDeemedPositive` as the sign") and are compared against the code. -/

/-- Signed contribution of one voucher line to an item, per the spec:
`actualQty` added when `isDeemedPositive` is true, subtracted when false. -/
def specLineSigned (itemName : String) (line : CanonicalVoucherLine) : ℚ :=
  if line.stockItemName = some itemName then
    match line.actualQty with
    | some q => if line.isDeemedPositive then q else -q
    | none => 0
  else 0

/-- Total signed contribution of one voucher's lines to an item. -/
def specVoucherSigned (itemName : String) (v : CanonicalVoucher) : ℚ :=
  (v.lines.map (specLineSigned itemName)).sum

/-- Spec-side pre-period replay: sum over effective vouchers dated in
`[fyStart, periodStart)` of their signed line contributions. -/
def specOpeningContribution (itemName : String) (vouchers : List CanonicalVoucher)
    (now fyStart periodStart : JSDate) : ℚ :=
  (((vouchers.filter (isEffectiveVoucher now)).filter
      (fun v => decide (fyStart ≤ v.date) && decide (v.date < periodStart))).map
    (specVoucherSigned itemName)).sum

theorem openingLineStep_eq (nm : String) (a : ℚ) (l : CanonicalVoucherLine) :
    openingLineStep nm a l = a + specLineSigned nm l := by
  unfold openingLineStep specLineSigned
  by_cases h : l.stockItemName = some nm
  · simp only [h, ne_eq, not_true_eq_false, if_false, if_true]
    cases hq : l.actualQty with
    | none => simp
    | some q =>
      by_cases hz : q = 0
      · subst hz
        cases l.isDeemedPositive <;> simp
      · cases l.isDeemedPositive <;> simp [hz] <;> try ring
  · simp [h]

theorem foldl_openingLineStep (nm : String) (lines : List CanonicalVoucherLine) (a : ℚ) :
    lines.foldl (openingLineStep nm) a = a + (lines.map (specLineSigned nm)).sum := by
  induction lines generalizing a with
  | nil => simp
  | cons l ls ih =>
    simp only [List.foldl_cons, List.map_cons, List.sum_cons, ih, openingLineStep_eq]
    ring

theorem inventoryOpeningRaw_eq (item : CanonicalStockItem)
    (effective : List CanonicalVoucher) (fyStart periodStart : JSDate) :
    inventoryOpeningRaw item effective fyStart periodStart
      = item.openingQty
        + ((effective.filter
              (fun v => decide (fyStart ≤ v.date) && decide (v.date < periodStart))).map
            (specVoucherSigned item.name)).sum := by
  unfold inventoryOpeningRaw
  generalize item.openingQty = a
  induction effective generalizing a with
  | nil => simp
  | cons v vs ih =>
    simp only [List.foldl_cons, List.filter_cons]
    by_cases h1 : v.date < fyStart
    · have hn : ¬ fyStart ≤ v.date := not_le.mpr h1
      have hc : ¬ ((decide (fyStart ≤ v.date) && decide (v.date < periodStart)) = true) := by
        simp [hn]
      rw [if_pos h1, ih, if_neg hc]
    · by_cases h2 : periodStart ≤ v.date
      · have hn : ¬ v.date < periodStart := not_lt.mpr h2
        have hc : ¬ ((decide (fyStart ≤ v.date) && decide (v.date < periodStart)) = true) := by
          simp [hn]
        rw [if_neg h1, if_pos h2, ih, if_neg hc]
      · have hle : fyStart ≤ v.date := not_lt.mp h1
        have hlt : v.date < periodStart := not_le.mp h2
        have hc : (decide (fyStart ≤ v.date) && decide (v.date < periodStart)) = true := by
          simp [hle, hlt]
        rw [if_neg h1, if_neg h2, foldl_openingLineStep, ih, if_pos hc]
        simp only [List.map_cons, List.sum_cons, specVoucherSigned]
        ring

/-- C2: the `openingQty` field equals the item's master opening quantity plus
the signed replay of effective vouchers dated in `[FY start, periodStart)`,
rounded to 3 decimal places. -/
theorem C2_openingQty_characterization (item : CanonicalStockItem)
    (vouchers : List CanonicalVoucher) (fyStartYear : Int)
    (now periodStart periodEnd : JSDate) :
    (computeItemInventory item vouchers fyStartYear now periodStart periodEnd).openingQty
      = round3 (item.openingQty
          + specOpeningContribution item.name vouchers now
              (getFYBounds fyStartYear).start periodStart) := by
  simp only [computeItemInventory, inventoryOpeningRaw_eq, specOpeningContribution]

/-! ## C3: flagged vouchers contribute nothing -/

theorem isEffectiveVoucher_false_of_flag (now : JSDate) (v : CanonicalVoucher)
    (h : v.isOptional = true ∨ v.isCancelled = true ∨ v.isVoid = true ∨ v.isDeleted = true) :
    isEffectiveVoucher now v = false := by
  unfold isEffectiveVoucher
  rcases h with h | h | h | h <;> simp [h]

/-- C3: a voucher with `isOptional`, `isCancelled`, `isVoid` or `isDeleted`
set contributes nothing: removing it from the collection leaves the period's
`openingQty`, `inwardQty` and `outwardQty` unchanged. -/
theorem C3_flagged_voucher_contributes_nothing (item : CanonicalStockItem)
    (v : CanonicalVoucher) (l1 l2 : List CanonicalVoucher) (fyStartYear : Int)
    (now periodStart periodEnd : JSDate)
    (h : v.isOptional = true ∨ v.isCancelled = true ∨ v.isVoid = true ∨ v.isDeleted = true) :
    (computeItemInventory item (l1 ++ v :: l2) fyStartYear now periodStart periodEnd).openingQty
        = (computeItemInventory item (l1 ++ l2) fyStartYear now periodStart periodEnd).openingQty
      ∧ (computeItemInventory item (l1 ++ v :: l2) fyStartYear now periodStart periodEnd).inwardQty
        = (computeItemInventory item (l1 ++ l2) fyStartYear now periodStart periodEnd).inwardQty
      ∧ (computeItemInventory item (l1 ++ v :: l2) fyStartYear now periodStart periodEnd).outwardQty
        = (computeItemInventory item (l1 ++ l2) fyStartYear now periodStart periodEnd).outwardQty := by
  have hfilter : (l1 ++ v :: l2).filter (isEffectiveVoucher now)
      = (l1 ++ l2).filter (isEffectiveVoucher now) := by
    simp [List.filter_append, List.filter_cons, isEffectiveVoucher_false_of_flag now v h]
  simp only [computeItemInventory, hfilter]
  exact ⟨trivial, trivial, trivial⟩

/-- A concrete stock item used by witnesses. -/
def itemW : CanonicalStockItem :=
  { name := "ITEM", nameNormalized := "ITEM", group := "", baseUnit := "PCS",
    alternateUnit := none, alternateConversion := none, hsn := none, gstRate := none,
    openingQty := 5, openingValue := 0, openingRate := 0, openingFYYear := 2023 }

/-- A concrete inventory line used by witnesses. -/
def lineW : CanonicalVoucherLine :=
  { ledgerName := none, stockItemName := some ("ITEM"), isDeemedPositive := true,
    isPartyLedger := false, amount := 0, actualQty := some 3, billedQty := none,
    unit := none, rate := none, isTaxLine := none, taxType := none, billAllocations := [] }

/-- A concrete voucher flagged `isOptional` used by witnesses. -/
def optionalVoucherW : CanonicalVoucher :=
  { id := "Sales|1|x", voucherNumber := "1", voucherType := VoucherType.Sales,
    date := 10, effectiveDate := 10, partyName := none, amount := 0, narration := none,
    gstin := none, placeOfSupply := none, irnNumber := none, isOptional := true,
    isCancelled := false, isPostDated := false, isVoid := false, isDeleted := false,
    lines := [lineW] }

/-- Witness for C3 at a concrete optional voucher. -/
theorem C3_witness :
    (computeItemInventory itemW ([] ++ optionalVoucherW :: []) 2023 100 0 20).openingQty
      = (computeItemInventory itemW ([] ++ []) 2023 100 0 20).openingQty :=
  (C3_flagged_voucher_contributes_nothing itemW optionalVoucherW [] [] 2023 100 0 20
    (Or.inl rfl)).1

/-! ## engine/units.ts -/

inductive UnitMode where
  | BASE
  | PKG
  deriving Repr, DecidableEq

structure ItemUnitConfig where
  itemName : String
  baseUnit : String
  pkgUnit : String
  unitsPerPkg : ℚ
  source : String
  deriving Repr, DecidableEq

structure FormattedQty where
  value : ℚ
  label : String
  formatted : String
  deriving Repr, DecidableEq

/-- Model of `Number.prototype.toFixed(2)` on values with at most two
decimal places (the only values `formatNumber` applies it to). -/
def toFixed2 (n : ℚ) : String :=
  let m := jsRound (|n| * 100)
  let ip := m / 100
  let fp := m % 100
  (if n < 0 then ("-") else ("")) ++ toString ip ++ "."
    ++ (if fp < 10 then ("0") ++ toString fp else toString fp)

/-- Model of `.replace(/\.?0+$/, "")`: strip trailing zeros and, when that
leaves a trailing dot, the dot as well. -/
def stripTrailingZeros (s : String) : String :=
  let r := s.toList.reverse
  if r.head? = some '0' then
    let r2 := r.dropWhile (fun c => c = '0')
    let r3 := if r2.head? = some '.' then r2.tail else r2
    r3.reverse.asString
  else s

/-- `formatNumber` from engine/units.ts. -/
def formatNumber (n : ℚ) : String :=
  if n.den = 1 then toString n.num
  else stripTrailingZeros (toFixed2 n)

/-- `formatQty` from engine/units.ts. -/
def formatQty (baseQty : ℚ) (config : Option ItemUnitConfig) (mode : UnitMode) :
    FormattedQty :=
  match config with
  | some c =>
    if mode = UnitMode.PKG ∧ 0 < c.unitsPerPkg then
      let pkgQty := baseQty / c.unitsPerPkg
      let rounded := round2 pkgQty
      { value := rounded, label := c.pkgUnit,
        formatted := formatNumber rounded ++ " " ++ c.pkgUnit }
    else
      let rounded := round2 baseQty
      { value := rounded, label := c.baseUnit,
        formatted := formatNumber rounded ++ " " ++ c.baseUnit }
  | none =>
    let rounded := round2 baseQty
    { value := rounded, label := "PCS",
      formatted := formatNumber rounded ++ " " ++ "PCS" }

/-- `toBase` from engine/units.ts. -/
def toBase (displayQty : ℚ) (config : Option ItemUnitConfig) (mode : UnitMode) : ℚ :=
  match config with
  | some c =>
    if mode = UnitMode.PKG ∧ 0 < c.unitsPerPkg then displayQty * c.unitsPerPkg
    else displayQty
  | none => displayQty

/-- The display value before the 2-decimal rounding that `formatQty`
applies (a plain restatement of its branch structure). -/
def displayRaw (baseQty : ℚ) (config : Option ItemUnitConfig) (mode : UnitMode) : ℚ :=
  match config with
  | some c =>
    if mode = UnitMode.PKG ∧ 0 < c.unitsPerPkg then baseQty / c.unitsPerPkg
    else baseQty
  | none => baseQty

/-- A concrete unit config used by the C5 theorems. -/
def cfgW : ItemUnitConfig :=
  { itemName := "X", baseUnit := "PCS", pkgUnit := "BOX", unitsPerPkg := 12,
    source := "manual" }

/-- C5 counterexample: with 12 units per package, the base quantity 7
displays as 0.58 packages and converts back to 6.96 ≠ 7, so `toBase` is
not the exact inverse of `formatQty`. -/
theorem C5_counterexample :
    toBase (formatQty 7 (some cfgW) UnitMode.PKG).value (some cfgW) UnitMode.PKG ≠ 7 := by
  have hr : round2 ((7 : ℚ)/12) = 29/50 := by
    unfold round2 jsRound
    have h6 : ((7 : ℚ)/12 * 100 + 1/2) = 353/6 := by norm_num
    rw [h6]
    have hf : ⌊(353 : ℚ)/6⌋ = 58 := by
      rw [Int.floor_eq_iff] <;> norm_num
    rw [hf]
    norm_num
  simp only [formatQty, toBase, cfgW]
  norm_num [hr]

/-- C5 amended: `toBase` inverts `formatQty` exactly on quantities whose
display value survives the 2-decimal rounding unchanged (in particular
whenever the displayed quantity is an integer multiple of 0.01). -/
theorem C5_roundtrip_on_exact_display (q : ℚ) (config : Option ItemUnitConfig)
    (mode : UnitMode) (h : round2 (displayRaw q config mode) = displayRaw q config mode) :
    toBase (formatQty q config mode).value config mode = q := by
  match config with
  | none =>
    simp only [displayRaw] at h
    simp only [formatQty, toBase, h]
  | some c =>
    by_cases hc : mode = UnitMode.PKG ∧ 0 < c.unitsPerPkg
    · simp only [displayRaw, if_pos hc] at h
      simp only [formatQty, toBase, if_pos hc, h]
      exact div_mul_cancel₀ q (ne_of_gt hc.2)
    · simp only [displayRaw, if_neg hc] at h
      simp only [formatQty, toBase, if_neg hc, h]

/-- Witness for the amended C5 at 300 base units, 12 per package. -/
theorem C5_roundtrip_witness :
    toBase (formatQty 300 (some cfgW) UnitMode.PKG).value (some cfgW) UnitMode.PKG = 300 :=
  C5_roundtrip_on_exact_display 300 (some cfgW) UnitMode.PKG (by
    simp only [displayRaw, cfgW]
    norm_num
    unfold round2 jsRound
    have h25 : ((25 : ℚ) * 100 + 1/2) = 5001/2 := by norm_num
    rw [h25]
    have hf : ⌊(5001 : ℚ)/2⌋ = 2500 := by
      rw [Int.floor_eq_iff] <;> norm_num
    rw [hf]
    norm_num)

/-! ## JS string helpers -/

/-- The JS `\s` / `trim` whitespace class. -/
def isJsWhitespace (c : Char) : Bool :=
  c = ' ' || c = '\t' || c = '\n' || c = '\r' || c.toNat = 11 || c.toNat = 12 ||
  c.toNat = 0xa0 || c.toNat = 0x1680 || (0x2000 ≤ c.toNat && c.toNat ≤ 0x200a) ||
  c.toNat = 0x2028 || c.toNat = 0x2029 || c.toNat = 0x202f || c.toNat = 0x205f ||
  c.toNat = 0x3000 || c.toNat = 0xfeff

/-- Model of `String.prototype.trim` on a character list. -/
def jsTrimL (l : List Char) : List Char :=
  ((l.dropWhile isJsWhitespace).reverse.dropWhile isJsWhitespace).reverse

/-- Model of `String.prototype.toLowerCase` (ASCII range). -/
def jsLowerL (l : List Char) : List Char := l.map Char.toLower

/-- Model of `String.prototype.includes`. -/
def jsIncludes (hay needle : List Char) : Bool := decide (needle <:+: hay)

/-! ## xml/normalizer.ts: voucher-type canonicalization -/

/-- `normalizeVoucherType` from xml/normalizer.ts: ordered substring
matching, generic patterns before the specific ones. -/
def normalizeVoucherType (raw : Option String) : VoucherType :=
  match raw with
  | none => VoucherType.Other
  | some s =>
    if s = "" then VoucherType.Other
    else
      let normalized := jsLowerL (jsTrimL s.toList)
      if jsIncludes normalized ("sales").toList then VoucherType.Sales
      else if jsIncludes normalized ("purchase").toList then VoucherType.Purchase
      else if jsIncludes normalized ("receipt").toList then VoucherType.Receipt
      else if jsIncludes normalized ("payment").toList then VoucherType.Payment
      else if jsIncludes normalized ("journal").toList then VoucherType.Journal
      else if jsIncludes normalized ("contra").toList then VoucherType.Contra
      else if jsIncludes normalized ("debit note").toList then VoucherType.DebitNote
      else if jsIncludes normalized ("credit note").toList then VoucherType.CreditNote
      else if jsIncludes normalized ("sales order").toList then VoucherType.SalesOrder
      else if jsIncludes normalized ("purchase order").toList then VoucherType.PurchaseOrder
      else if jsIncludes normalized ("delivery note").toList then VoucherType.DeliveryNote
      else if jsIncludes normalized ("receipt note").toList then VoucherType.ReceiptNote
      else if jsIncludes normalized ("rejection in").toList then VoucherType.RejectionIn
      else if jsIncludes normalized ("rejection out").toList then VoucherType.RejectionOut
      else if jsIncludes normalized ("stock journal").toList then VoucherType.StockJournal
      else VoucherType.Other

theorem jsIncludes_of_jsIncludes_of_isInfix {hay sub a : List Char}
    (h1 : jsIncludes hay sub = true) (h2 : a <:+: sub) : jsIncludes hay a = true := by
  simp only [jsIncludes, decide_eq_true_eq] at h1 ⊢
  exact h2.trans h1

/-- C9 counterexample: "Sales Purchase Order" contains "purchase order"
(lowercased) yet classifies as `Sales`, not `Purchase`. -/
theorem C9_counterexample :
    jsIncludes (jsLowerL (jsTrimL ("Sales Purchase Order").toList)) ("purchase order").toList
        = true
      ∧ normalizeVoucherType (some ("Sales Purchase Order")) = VoucherType.Sales := by
  constructor <;> decide

/-- C9 amended: a type string containing "sales order" always classifies as
`Sales` (never `Sales Order`); one containing "purchase order" classifies as
`Purchase` (never `Purchase Order`) provided it does not also contain
"sales", since the generic "sales" rule is evaluated first. -/
theorem C9_generic_rules_win (s : String) :
    (jsIncludes (jsLowerL (jsTrimL s.toList)) ("sales order").toList = true →
      normalizeVoucherType (some s) = VoucherType.Sales)
    ∧ (jsIncludes (jsLowerL (jsTrimL s.toList)) ("purchase order").toList = true →
        jsIncludes (jsLowerL (jsTrimL s.toList)) ("sales").toList = false →
        normalizeVoucherType (some s) = VoucherType.Purchase) := by
  constructor
  · intro h
    have hs : jsIncludes (jsLowerL (jsTrimL s.toList)) ("sales").toList = true :=
      jsIncludes_of_jsIncludes_of_isInfix h (by decide)
    have hne : s ≠ "" := by
      intro he
      rw [he] at h
      exact absurd h (by decide)
    simp only [normalizeVoucherType, if_neg hne, hs, if_true]
  · intro h hnot
    have hp : jsIncludes (jsLowerL (jsTrimL s.toList)) ("purchase").toList = true :=
      jsIncludes_of_jsIncludes_of_isInfix h (by decide)
    have hne : s ≠ "" := by
      intro he
      rw [he] at h
      exact absurd h (by decide)
    simp only [normalizeVoucherType, if_neg hne, hnot, hp, Bool.false_eq_true, if_false,
      if_true]

/-- Witness for the amended C9 at concrete order-type strings. -/
theorem C9_witness :
    normalizeVoucherType (some ("Sales Order")) = VoucherType.Sales
      ∧ normalizeVoucherType (some ("Purchase Order")) = VoucherType.Purchase :=
  ⟨(C9_generic_rules_win ("Sales Order")).1 (by decide),
   (C9_generic_rules_win ("Purchase Order")).2 (by decide) (by decide)⟩

/-! ## xml/extractor.ts -/

/-- Numeric value of a list of decimal digit characters. -/
def digitsToNat (ds : List Char) : Nat :=
  ds.foldl (fun a c => a * 10 + (c.toNat - '0'.toNat)) 0

/-- Model of JS `parseInt(s, 10)`: skip leading whitespace, optional single
sign, then at least one decimal digit; trailing non-digits are ignored.
`none` models `NaN`. -/
def jsParseIntDec (l : List Char) : Option Int :=
  let l0 := l.dropWhile isJsWhitespace
  let p : Int × List Char :=
    match l0 with
    | '-' :: rest => (-1, rest)
    | '+' :: rest => (1, rest)
    | _ => (1, l0)
  let ds := p.2.takeWhile Char.isDigit
  if ds.isEmpty then none else some (p.1 * (digitsToNat ds : Int))

/-- Exponent part of a JS `parseFloat` literal (0 when absent/invalid,
matching backtracking of an incomplete exponent). -/
def parseExpPart (r : List Char) : Int :=
  let p : Int × List Char :=
    match r with
    | '-' :: t => (-1, t)
    | '+' :: t => (1, t)
    | _ => (1, r)
  let ds := p.2.takeWhile Char.isDigit
  if ds.isEmpty then 0 else p.1 * (digitsToNat ds : Int)

/-- Model of JS `parseFloat`: longest numeric-literal prefix after leading
whitespace; `none` models `NaN`.  (The non-finite literal `Infinity` is not
representable in ℚ and maps to `none`; Tally exports never contain it.) -/
def jsParseFloat (l : List Char) : Option ℚ :=
  let l0 := l.dropWhile isJsWhitespace
  let p : ℚ × List Char :=
    match l0 with
    | '-' :: rest => (-1, rest)
    | '+' :: rest => (1, rest)
    | _ => (1, l0)
  let ip := p.2.takeWhile Char.isDigit
  let r1 := p.2.drop ip.length
  let q : List Char × List Char :=
    match r1 with
    | '.' :: rest => (rest.takeWhile Char.isDigit, rest.drop (rest.takeWhile Char.isDigit).length)
    | _ => ([], r1)
  if ip.isEmpty && q.1.isEmpty then none
  else
    let ex : Int :=
      match q.2 with
      | 'e' :: rest => parseExpPart rest
      | 'E' :: rest => parseExpPart rest
      | _ => 0
    some (p.1 * ((digitsToNat ip : ℚ) + (digitsToNat q.1 : ℚ) / (10 : ℚ) ^ q.1.length)
      * (10 : ℚ) ^ ex)

/-- `parseQuantity` from xml/extractor.ts: 0 for empty/invalid input. -/
def parseQuantity (val : Option String) : ℚ :=
  match val with
  | none => 0
  | some v =>
    if v = "" then 0
    else
      let trimmed := jsTrimL v.toList
      if trimmed.isEmpty then 0
      else
        match jsParseFloat trimmed with
        | none => 0
        | some q => q

/-- `parseAmount` (alias of `parseQuantity`). -/
def parseAmount (val : Option String) : ℚ := parseQuantity val

/-- The `/^-?[\d.]+/` match of `parseRate` (longest prefix of an optional
minus sign followed by digits and dots). -/
def rateMatchL (l : List Char) : Option (List Char) :=
  let p : List Char × List Char :=
    match l with
    | '-' :: rest => (['-'], rest)
    | _ => ([], l)
  let ds := p.2.takeWhile (fun c => c.isDigit || c = '.')
  if ds.isEmpty then none else some (p.1 ++ ds)

/-- `parseRate` from xml/extractor.ts: strip a non-numeric suffix, then
parse; 0 for invalid input. -/
def parseRate (val : Option String) : ℚ :=
  match val with
  | none => 0
  | some v =>
    if v = "" then 0
    else
      let trimmed := jsTrimL v.toList
      match rateMatchL trimmed with
      | none => 0
      | some m =>
        match jsParseFloat m with
        | none => 0
        | some q => q

/-- `parseTallyDate` from xml/extractor.ts: `"YYYYMMDD"` → `Date`. -/
def parseTallyDate (val : Option String) : Option JSDate :=
  match val with
  | none => none
  | some v =>
    if v = "" then none
    else
      let trimmed := jsTrimL v.toList
      if trimmed.length ≠ 8 then none
      else
        match jsParseIntDec (trimmed.take 4),
            jsParseIntDec ((trimmed.drop 4).take 2),
            jsParseIntDec ((trimmed.drop 6).take 2) with
        | some year, some month, some day =>
          if month < 1 ∨ 12 < month then none
          else if day < 1 ∨ 31 < day then none
          else some (jsMkDate year (month - 1) day 0 0 0)
        | _, _, _ => none

/-- `parseTallyBool` from xml/extractor.ts: only a trimmed, case-insensitive
"yes" is true. -/
def parseTallyBool (val : Option String) : Bool :=
  match val with
  | none => false
  | some v =>
    if v = "" then false
    else jsLowerL (jsTrimL v.toList) = "yes".toList

/-- Model of `String.prototype.toUpperCase` (ASCII range). -/
def jsUpperL (l : List Char) : List Char := l.map Char.toUpper

/-- `normalizeUnit` from xml/extractor.ts (imported as `normalizeUnitString`). -/
def normalizeUnitString (val : Option String) : String :=
  match val with
  | none => ""
  | some v => if v = "" then ("") else (jsUpperL (jsTrimL v.toList)).asString

/-- The `/\s*\(\s*\d+\s*\)\s*$/` suffix strip of `normalizeGroupName`. -/
def stripHsnSuffix (l : List Char) : List Char :=
  let r := l.reverse.dropWhile isJsWhitespace
  match r with
  | ')' :: r2 =>
    let r3 := r2.dropWhile isJsWhitespace
    let ds := r3.takeWhile Char.isDigit
    if ds.isEmpty then l
    else
      let r4 := (r3.drop ds.length).dropWhile isJsWhitespace
      match r4 with
      | '(' :: r5 => (r5.dropWhile isJsWhitespace).reverse
      | _ => l
  | _ => l

/-- `normalizeGroupName` from xml/extractor.ts. -/
def normalizeGroupName (val : Option String) : String :=
  match val with
  | none => ""
  | some v => if v = "" then ("") else (stripHsnSuffix (jsTrimL v.toList)).asString

/-- `normalizeName` from xml/extractor.ts: uppercase + trim for map keys. -/
def normalizeName (val : Option String) : String :=
  match val with
  | none => ""
  | some v => if v = "" then ("") else (jsUpperL (jsTrimL v.toList)).asString

/-! ## C6: acceptance condition of parseTallyDate -/

/-- C6 counterexample: "202A0101" contains a non-digit after trimming, yet
`parseTallyDate` accepts it (`parseInt` reads the leading digits of "202A"). -/
theorem C6_counterexample :
    (parseTallyDate (some ("202A0101"))).isSome = true
      ∧ (jsTrimL ("202A0101").toList).all Char.isDigit = false := by
  constructor <;> decide

/-- C6 amended: `parseTallyDate` returns a date exactly when the trimmed
input has exactly 8 characters and each of the three slices (0–3, 4–5, 6–7)
parses under JS `parseInt` semantics (leading whitespace/sign allowed,
trailing non-digits ignored), with the month value in 1–12 and the day
value in 1–31; some trimmed strings containing non-digits are accepted. -/
theorem C6_parseTallyDate_characterization (s : String) :
    (parseTallyDate (some s)).isSome = true ↔
      ((jsTrimL s.toList).length = 8
        ∧ ∃ y m d : Int,
            jsParseIntDec ((jsTrimL s.toList).take 4) = some y
            ∧ jsParseIntDec (((jsTrimL s.toList).drop 4).take 2) = some m
            ∧ jsParseIntDec (((jsTrimL s.toList).drop 6).take 2) = some d
            ∧ 1 ≤ m ∧ m ≤ 12 ∧ 1 ≤ d ∧ d ≤ 31) := by
  by_cases hs : s = ""
  · subst hs
    constructor
    · intro h
      exact absurd h (by decide)
    · rintro ⟨h8, -⟩
      exact absurd h8 (by decide)
  · simp only [parseTallyDate, if_neg hs]
    by_cases hlen : (jsTrimL s.toList).length = 8
    · simp only [hlen, ne_eq, not_true_eq_false, if_false]
      cases hy : jsParseIntDec ((jsTrimL s.toList).take 4) with
      | none => simp [hy]
      | some y =>
        cases hm : jsParseIntDec (((jsTrimL s.toList).drop 4).take 2) with
        | none => simp [hy, hm]
        | some m =>
          cases hd : jsParseIntDec (((jsTrimL s.toList).drop 6).take 2) with
          | none => simp [hy, hm, hd]
          | some d =>
            simp only [hy, hm, hd, true_and]
            by_cases hmr : m < 1 ∨ 12 < m
            · simp only [if_pos hmr, Option.isSome_none]
              constructor
              · intro h
                exact absurd h (by simp)
              · rintro ⟨y2, m2, d2, hy2, hm2, hd2, h1, h2, h3, h4⟩
                have hmm := Option.some.inj hm2
                exact absurd hmr (by omega)
            · by_cases hdr : d < 1 ∨ 31 < d
              · simp only [if_neg hmr, if_pos hdr, Option.isSome_none]
                constructor
                · intro h
                  exact absurd h (by simp)
                · rintro ⟨y2, m2, d2, hy2, hm2, hd2, h1, h2, h3, h4⟩
                  have hdd := Option.some.inj hd2
                  exact absurd hdr (by omega)
              · simp only [if_neg hmr, if_neg hdr, Option.isSome_some, true_iff]
                exact ⟨y, m, d, rfl, rfl, rfl, by omega, by omega, by omega, by omega⟩
    · simp only [hlen, ne_eq, not_false_eq_true, if_true, Option.isSome_none,
        Bool.false_eq_true, false_iff]
      rintro ⟨h8, -⟩
      exact h8

/-- Witness for the amended C6 at the accepted date "20230401". -/
theorem C6_witness :
    (parseTallyDate (some ("20230401"))).isSome = true :=
  (C6_parseTallyDate_characterization ("20230401")).mpr
    ⟨by decide, 2023, 4, 1, by decide, by decide, by decide,
      by decide, by decide, by decide, by decide⟩

/-! ## Remaining canonical types (types/canonical.ts) -/

structure CanonicalUnit where
  symbol : String
  formalName : String
  isSimple : Bool
  baseUnit : Option String
  additionalUnit : Option String
  conversion : Option ℚ
  deriving Repr, DecidableEq

structure CanonicalLedger where
  name : String
  nameNormalized : String
  parent : String
  openingBalance : ℚ
  gstin : Option String
  stateName : Option String
  email : Option String
  phone : Option String
  mobile : Option String
  creditPeriod : ℚ
  deriving Repr, DecidableEq

structure CompanyInfo where
  name : String
  gstin : Option String
  stateName : Option String
  financialYearBegins : Option String
  deriving Repr, DecidableEq

structure ImportWarning where
  file : String
  severity : String
  element : String
  message : String
  deriving Repr, DecidableEq

/-- `ParsedData`; JS `Map`s are modelled as insertion-ordered association
lists with unique keys. -/
structure ParsedData where
  company : Option CompanyInfo
  ledgers : List (String × CanonicalLedger)
  stockItems : List (String × CanonicalStockItem)
  units : List (String × CanonicalUnit)
  vouchers : List CanonicalVoucher
  importedAt : JSDate
  sourceFiles : List String
  warnings : List ImportWarning
  deriving Repr, DecidableEq

/-! ## JS truthiness helpers for string-valued fields -/

/-- Truthiness of a possibly-absent JS string: `undefined`, `null` and the
empty string are falsy. -/
def truthyStr (o : Option String) : Option String :=
  match o with
  | some s => if s = "" then none else some s
  | none => none

/-- Model of `a || b` on string fields (the right operand kept as-is). -/
def jsOrStrOpt (a b : Option String) : Option String :=
  match truthyStr a with
  | some s => some s
  | none => b

/-- Model of `a || b || d` on string fields with a string default. -/
def jsOrStrD (a b : Option String) (d : String) : String :=
  match truthyStr a with
  | some s => s
  | none =>
    match truthyStr b with
    | some s => s
    | none => d

/-- Model of `String.prototype.trim` on a `String`. -/
def jsTrimS (s : String) : String := (jsTrimL s.toList).asString

/-- Model of `x ? String(x).trim() : undefined` on a string field. -/
def optTrim (o : Option String) : Option String :=
  match truthyStr o with
  | some s => some (jsTrimS s)
  | none => none

/-- Truthiness of an optional string, as a Bool. -/
def truthyOptStr (o : Option String) : Bool :=
  match o with
  | some s => decide (s ≠ "")
  | none => false

/-! ## xml/normalizer.ts: name extraction and raw element model

Raw fast-xml-parser objects are duck-typed; we model exactly the fields the
normalizer reads, each as `Option String` (absent = `undefined`).  Non-string
junk values (which the code would stringify) are outside the model. -/

structure RawNameFields where
  atUnderscoreName : Option String
  atName : Option String
  name : Option String
  nameList : Option (List (Option String))
  deriving Repr, DecidableEq

/-- `extractName` from xml/normalizer.ts: attribute form, direct field,
then `NAME.LIST` first entry; first truthy value wins. -/
def extractName (nf : RawNameFields) : String :=
  match truthyStr nf.atUnderscoreName with
  | some s => jsTrimS s
  | none =>
    match truthyStr nf.atName with
    | some s => jsTrimS s
    | none =>
      match truthyStr nf.name with
      | some s => jsTrimS s
      | none =>
        match nf.nameList with
        | some (first :: _) =>
          match truthyStr first with
          | some s => jsTrimS s
          | none => ""
        | _ => ""

structure RawGstDetails where
  HSNCODE : Option String
  HSNUMBER : Option String
  GSTRATE : Option String
  TAXRATE : Option String
  deriving Repr, DecidableEq

structure RawStockItem where
  nf : RawNameFields
  BASEUNITS : Option String
  atBASEUNITS : Option String
  OPENINGBALANCE : Option String
  OPENINGVALUE : Option String
  OPENINGRATE : Option String
  PARENT : Option String
  atPARENT : Option String
  ADDITIONALUNITS : Option String
  CONVERSION : Option String
  GSTDETAILS : Option (List RawGstDetails)
  deriving Repr, DecidableEq

/-- `normalizeStockItem` from xml/normalizer.ts.  The unused `_units`
parameter is kept; the wall-clock date read by `getCurrentFYStartYear()` is
passed in as `(nowFullYear, nowMonth)`. -/
def normalizeStockItem (raw : Option RawStockItem)
    (_units : List (String × CanonicalUnit)) (nowFullYear nowMonth : Int) :
    Option CanonicalStockItem :=
  match raw with
  | none => none
  | some raw =>
    let name := extractName raw.nf
    if name = "" then none
    else
      let nameNormalized := normalizeName (some name)
      let baseUnitRaw := jsOrStrD raw.BASEUNITS raw.atBASEUNITS ("PCS")
      let baseUnit := normalizeUnitString (some baseUnitRaw)
      let openingQty := parseQuantity raw.OPENINGBALANCE
      let openingValue := |parseAmount raw.OPENINGVALUE|
      let openingRate :=
        if 0 < openingQty then openingValue / openingQty else parseRate raw.OPENINGRATE
      let parentRaw := jsOrStrD raw.PARENT raw.atPARENT ("")
      let group := normalizeGroupName (some parentRaw)
      let alt : Option String × Option ℚ :=
        match truthyStr raw.ADDITIONALUNITS with
        | some altUnitRaw =>
          (some (normalizeUnitString (some altUnitRaw)),
            match truthyStr raw.CONVERSION with
            | some _ => some (parseQuantity raw.CONVERSION)
            | none => none)
        | none => (none, none)
      let gst : Option String × Option ℚ :=
        match raw.GSTDETAILS with
        | some (gd :: _) =>
          let hsn :=
            match truthyStr (jsOrStrOpt gd.HSNCODE gd.HSNUMBER) with
            | some s => some (jsTrimS s)
            | none => none
          let gstRate :=
            match truthyStr (jsOrStrOpt gd.GSTRATE gd.TAXRATE) with
            | some s => some (parseRate (some s))
            | none => none
          (hsn, gstRate)
        | _ => (none, none)
      let openingFYYear := getCurrentFYStartYear nowFullYear nowMonth
      some { name := name, nameNormalized := nameNormalized, group := group,
             baseUnit := baseUnit, alternateUnit := alt.1, alternateConversion := alt.2,
             hsn := gst.1, gstRate := gst.2, openingQty := openingQty,
             openingValue := openingValue, openingRate := openingRate,
             openingFYYear := openingFYYear }

/-- `normalizeBillType` from xml/normalizer.ts. -/
def normalizeBillType (raw : Option String) : String :=
  match raw with
  | none => "On Account"
  | some s =>
    if s = "" then "On Account"
    else
      let normalized := jsLowerL (jsTrimL s.toList)
      if jsIncludes normalized ("new ref".toList) then "New Ref"
      else if jsIncludes normalized ("agst ref".toList) then "Agst Ref"
      else if jsIncludes normalized ("advance".toList) then "Advance"
      else "On Account"

/-- `detectTaxType` from xml/normalizer.ts: ordered substring rules
CGST, SGST, IGST, Cess, TDS, then a generic tax/gst fallback. -/
def detectTaxType (ledgerName : String) : Option String :=
  if ledgerName = "" then none
  else
    let normalized := jsLowerL (jsTrimL ledgerName.toList)
    if jsIncludes normalized ("cgst".toList) then some ("CGST")
    else if jsIncludes normalized ("sgst".toList) then some ("SGST")
    else if jsIncludes normalized ("igst".toList) then some ("IGST")
    else if jsIncludes normalized ("cess".toList) then some ("Cess")
    else if jsIncludes normalized ("tds".toList) then some ("TDS")
    else if jsIncludes normalized ("tax".toList) || jsIncludes normalized ("gst".toList) then
      some ("Other")
    else none

structure RawInventoryEntry where
  nf : RawNameFields
  STOCKITEMNAME : Option String
  ACTUALQTY : Option String
  BILLEDQTY : Option String
  RATE : Option String
  AMOUNT : Option String
  UNIT : Option String
  UOM : Option String
  ISDEEMEDPOSITIVE : Option String
  INVENTORYALLOCATIONS : Option (List Unit)
  deriving Repr, DecidableEq

/-- `normalizeInventoryEntry` from xml/normalizer.ts. -/
def normalizeInventoryEntry (raw : RawInventoryEntry) : CanonicalVoucherLine :=
  let stockItemName := jsOrStrD (some (extractName raw.nf)) raw.STOCKITEMNAME ("")
  let actualQty := parseQuantity raw.ACTUALQTY
  let billedQty := parseQuantity raw.BILLEDQTY
  let rate := parseRate raw.RATE
  let amount := parseAmount raw.AMOUNT
  let unitRaw := jsOrStrD raw.UNIT raw.UOM ("PCS")
  let unit := normalizeUnitString (some unitRaw)
  let isDeemedPositive := parseTallyBool raw.ISDEEMEDPOSITIVE
  { ledgerName := none, stockItemName := some stockItemName,
    isDeemedPositive := isDeemedPositive, isPartyLedger := false, amount := amount,
    actualQty := some actualQty, billedQty := some billedQty, unit := some unit,
    rate := some rate, isTaxLine := none, taxType := none, billAllocations := [] }

structure RawBillAllocation where
  NAME : Option String
  BILLNAME : Option String
  BILLTYPE : Option String
  AMOUNT : Option String
  DUEDATE : Option String
  BILLDATE : Option String
  deriving Repr, DecidableEq

structure RawLedgerEntry where
  nf : RawNameFields
  LEDGERNAME : Option String
  AMOUNT : Option String
  ISDEEMEDPOSITIVE : Option String
  ISPARTYLEDGER : Option String
  BILLALLOCATIONS : Option (List RawBillAllocation)
  deriving Repr, DecidableEq

/-- `normalizeLedgerEntry` from xml/normalizer.ts: empty list when the
ledger name is missing, else a single financial line with its parsed bill
allocations. -/
def normalizeLedgerEntry (raw : RawLedgerEntry) : List CanonicalVoucherLine :=
  let ledgerName := jsOrStrD (some (extractName raw.nf)) raw.LEDGERNAME ("")
  if ledgerName = "" then []
  else
    let amount := parseAmount raw.AMOUNT
    let isDeemedPositive := parseTallyBool raw.ISDEEMEDPOSITIVE
    let isPartyLedger := parseTallyBool raw.ISPARTYLEDGER
    let taxType := detectTaxType ledgerName
    let isTaxLine := taxType.isSome
    let billAllocations :=
      (raw.BILLALLOCATIONS.getD []).filterMap (fun billRaw =>
        let billRef := jsOrStrD billRaw.NAME billRaw.BILLNAME ("")
        if billRef = "" then none
        else
          let billTypeRaw := jsOrStrD billRaw.BILLTYPE none ("On Account")
          let billType := normalizeBillType (some billTypeRaw)
          let billAmount := |parseAmount billRaw.AMOUNT|
          let dueDateStr := jsOrStrOpt billRaw.DUEDATE billRaw.BILLDATE
          let dueDate := parseTallyDate dueDateStr
          some { billRef := billRef, billType := billType, amount := billAmount,
                 dueDate := dueDate })
    [{ ledgerName := some ledgerName, stockItemName := none,
       isDeemedPositive := isDeemedPositive, isPartyLedger := isPartyLedger,
       amount := amount, actualQty := none, billedQty := none, unit := none,
       rate := none, isTaxLine := some isTaxLine, taxType := taxType,
       billAllocations := billAllocations }]

/-- String value of a `VoucherType` (the template-literal interpolation
used when building the voucher id). -/
def voucherTypeStr (t : VoucherType) : String :=
  match t with
  | VoucherType.Sales => "Sales"
  | VoucherType.Purchase => "Purchase"
  | VoucherType.Receipt => "Receipt"
  | VoucherType.Payment => "Payment"
  | VoucherType.Journal => "Journal"
  | VoucherType.Contra => "Contra"
  | VoucherType.DebitNote => "Debit Note"
  | VoucherType.CreditNote => "Credit Note"
  | VoucherType.SalesOrder => "Sales Order"
  | VoucherType.PurchaseOrder => "Purchase Order"
  | VoucherType.DeliveryNote => "Delivery Note"
  | VoucherType.ReceiptNote => "Receipt Note"
  | VoucherType.RejectionIn => "Rejection In"
  | VoucherType.RejectionOut => "Rejection Out"
  | VoucherType.StockJournal => "Stock Journal"
  | VoucherType.Other => "Other"

structure RawVoucher where
  VOUCHERNUMBER : Option String
  atVOUCHERNUMBER : Option String
  VOUCHERTYPE : Option String
  VOUCHERTYPENAME : Option String
  DATE : Option String
  atDATE : Option String
  EFFECTIVEDATE : Option String
  PARTYNAME : Option String
  PARTYLEDGERNAME : Option String
  NARRATION : Option String
  PARTYGSTIN : Option String
  CONSIGNEEGSTIN : Option String
  PLACEOFSUPPLY : Option String
  IRN : Option String
  IRNNUMBER : Option String
  ISOPTIONAL : Option String
  ISCANCELLED : Option String
  ISPOSTDATED : Option String
  ISVOID : Option String
  ISDELETED : Option String
  ALLLEDGERENTRIES : Option (List RawLedgerEntry)
  LEDGERENTRIES : Option (List RawLedgerEntry)
  ALLINVENTORYENTRIES : Option (List RawInventoryEntry)
  INVENTORYENTRIES : Option (List RawInventoryEntry)
  deriving Repr, DecidableEq

/-- `normalizeVoucher` from xml/normalizer.ts. -/
def normalizeVoucher (raw : Option RawVoucher) : Option CanonicalVoucher :=
  match raw with
  | none => none
  | some raw =>
    let voucherNumber := jsOrStrD raw.VOUCHERNUMBER raw.atVOUCHERNUMBER ("")
    if voucherNumber = "" then none
    else
      let voucherTypeRaw := jsOrStrD raw.VOUCHERTYPE raw.VOUCHERTYPENAME ("Other")
      let voucherType := normalizeVoucherType (some voucherTypeRaw)
      let dateStr := jsOrStrOpt raw.DATE raw.atDATE
      match parseTallyDate dateStr with
      | none => none
      | some date =>
        let effectiveDateStr := jsOrStrOpt raw.EFFECTIVEDATE dateStr
        let effectiveDate := (parseTallyDate effectiveDateStr).getD date
        let partyName := jsOrStrOpt raw.PARTYNAME raw.PARTYLEDGERNAME
        let narration := raw.NARRATION
        let gstin := jsOrStrOpt raw.PARTYGSTIN raw.CONSIGNEEGSTIN
        let placeOfSupply := raw.PLACEOFSUPPLY
        let irnNumber := jsOrStrOpt raw.IRN raw.IRNNUMBER
        let isOptional := parseTallyBool raw.ISOPTIONAL
        let isCancelled := parseTallyBool raw.ISCANCELLED
        let isPostDated := parseTallyBool raw.ISPOSTDATED
        let isVoid := parseTallyBool raw.ISVOID
        let isDeleted := parseTallyBool raw.ISDELETED
        let combinedLedger := raw.ALLLEDGERENTRIES.getD [] ++ raw.LEDGERENTRIES.getD []
        let combinedInventory :=
          raw.ALLINVENTORYENTRIES.getD [] ++ raw.INVENTORYENTRIES.getD []
        let lines :=
          combinedLedger.flatMap normalizeLedgerEntry
            ++ combinedInventory.map normalizeInventoryEntry
        let partyLine := lines.find? (fun l => l.isPartyLedger)
        let amount :=
          match partyLine with
          | some l => |l.amount|
          | none =>
            ((lines.filter (fun l => truthyOptStr l.stockItemName)).map
              (fun l => |l.amount|)).sum
        let id := voucherTypeStr voucherType ++ "|" ++ voucherNumber ++ "|" ++ dateISO date
        some { id := id, voucherNumber := voucherNumber, voucherType := voucherType,
               date := date, effectiveDate := effectiveDate,
               partyName := optTrim partyName, amount := amount,
               narration := optTrim narration, gstin := optTrim gstin,
               placeOfSupply := optTrim placeOfSupply, irnNumber := optTrim irnNumber,
               isOptional := isOptional, isCancelled := isCancelled,
               isPostDated := isPostDated, isVoid := isVoid, isDeleted := isDeleted,
               lines := lines }

/-! ## workers/xmlParser.worker.ts: the voucher-extraction loop -/

/-- The fresh `ParsedData` the worker initializes for a file (step 4 of the
message handler); its warning list starts empty. -/
def workerInitBatch (fileName : String) (now : JSDate) : ParsedData :=
  { company := none, ledgers := [], stockItems := [], units := [], vouchers := [],
    importedAt := now, sourceFiles := [fileName], warnings := [] }

/-- The `VOUCHER.LIST` loop of the worker's message handler: normalize each
raw element, push it when accepted, skip it otherwise.  No statement of the
worker ever writes to the batch's warning list. -/
def workerProcessVouchers (raws : List (Option RawVoucher)) (pd : ParsedData) :
    ParsedData :=
  raws.foldl
    (fun pd raw =>
      match normalizeVoucher raw with
      | some voucher => { pd with vouchers := pd.vouchers ++ [voucher] }
      | none => pd)
    pd

/-! ## C10: openingFYYear comes from the wall clock -/

/-- C10: every accepted stock item gets `openingFYYear` equal to the fiscal
year containing the current wall-clock date (the current year from April
onwards, else the previous year), regardless of the raw element. -/
theorem C10_openingFYYear_from_wall_clock (raw : Option RawStockItem)
    (units : List (String × CanonicalUnit)) (nowFullYear nowMonth : Int)
    (item : CanonicalStockItem)
    (h : normalizeStockItem raw units nowFullYear nowMonth = some item) :
    item.openingFYYear = (if 3 ≤ nowMonth then nowFullYear else nowFullYear - 1) := by
  match raw with
  | none => exact absurd h (by simp [normalizeStockItem])
  | some r =>
    simp only [normalizeStockItem] at h
    by_cases hn : extractName r.nf = ""
    · rw [if_pos hn] at h
      exact absurd h (by simp)
    · rw [if_neg hn] at h
      have := Option.some.inj h
      subst this
      rfl

/-- A concrete raw stock-item element used by the C10 witness. -/
def rawItemW : RawStockItem :=
  { nf := { atUnderscoreName := none, atName := none, name := some ("Bell"),
            nameList := none },
    BASEUNITS := none, atBASEUNITS := none, OPENINGBALANCE := none,
    OPENINGVALUE := none, OPENINGRATE := none, PARENT := none, atPARENT := none,
    ADDITIONALUNITS := none, CONVERSION := none, GSTDETAILS := none }

/-- The canonical item `normalizeStockItem` produces from `rawItemW` in
October 2025. -/
def itemC10 : CanonicalStockItem :=
  { name := "Bell", nameNormalized := "BELL", group := "", baseUnit := "PCS",
    alternateUnit := none, alternateConversion := none, hsn := none, gstRate := none,
    openingQty := 0, openingValue := 0, openingRate := 0, openingFYYear := 2025 }

/-- Witness for C10 in October 2025 (0-based month 9). -/
theorem C10_witness :
    normalizeStockItem (some rawItemW) [] 2025 9 = some itemC10
      ∧ itemC10.openingFYYear = 2025 := by
  have h : normalizeStockItem (some rawItemW) [] 2025 9 = some itemC10 := by rfl
  refine ⟨h, ?_⟩
  have := C10_openingFYYear_from_wall_clock (some rawItemW) [] 2025 9 itemC10 h
  simpa using this

/-! ## C7: a voucher with an unparseable date is dropped silently -/

theorem normalizeVoucher_none_of_bad_date (raw : RawVoucher)
    (hdate : parseTallyDate (jsOrStrOpt raw.DATE raw.atDATE) = none) :
    normalizeVoucher (some raw) = none := by
  simp only [normalizeVoucher]
  by_cases hn : jsOrStrD raw.VOUCHERNUMBER raw.atVOUCHERNUMBER ("") = ""
  · rw [if_pos hn]
  · rw [if_neg hn, hdate]

theorem workerProcessVouchers_warnings (raws : List (Option RawVoucher))
    (pd : ParsedData) : (workerProcessVouchers raws pd).warnings = pd.warnings := by
  induction raws generalizing pd with
  | nil => rfl
  | cons r rs ih =>
    simp only [workerProcessVouchers, List.foldl_cons]
    cases hr : normalizeVoucher r <;> simpa [hr, workerProcessVouchers] using ih _

/-- A concrete VOUCHER element with a voucher number but an unparseable
date, used by the C7 theorems. -/
def rawBadDateVoucher : RawVoucher :=
  { VOUCHERNUMBER := some ("17"), atVOUCHERNUMBER := none,
    VOUCHERTYPE := some ("Sales"), VOUCHERTYPENAME := none,
    DATE := some ("NOTADATE"), atDATE := none, EFFECTIVEDATE := none,
    PARTYNAME := none, PARTYLEDGERNAME := none, NARRATION := none,
    PARTYGSTIN := none, CONSIGNEEGSTIN := none, PLACEOFSUPPLY := none,
    IRN := none, IRNNUMBER := none, ISOPTIONAL := none, ISCANCELLED := none,
    ISPOSTDATED := none, ISVOID := none, ISDELETED := none,
    ALLLEDGERENTRIES := none, LEDGERENTRIES := none,
    ALLINVENTORYENTRIES := none, INVENTORYENTRIES := none }

/-- C7 counterexample: the worker drops the bad-date voucher but appends no
warning at all — the batch's warning list stays empty, refuting the claim
that a MissingRequiredField warning is recorded. -/
theorem C7_counterexample :
    (workerProcessVouchers [some rawBadDateVoucher] (workerInitBatch ("f.xml") 0)).vouchers
        = []
      ∧ (workerProcessVouchers [some rawBadDateVoucher]
          (workerInitBatch ("f.xml") 0)).warnings = [] := by
  constructor <;> rfl

/-- C7 amended: when a VOUCHER element's date fails to parse, the worker
drops that single voucher and continues with the remaining elements,
producing exactly the batch it would produce without the element — in
particular the warning list is untouched (no warning of any kind is
recorded). -/
theorem C7_bad_date_dropped_silently (pd : ParsedData)
    (pre post : List (Option RawVoucher)) (raw : RawVoucher)
    (hdate : parseTallyDate (jsOrStrOpt raw.DATE raw.atDATE) = none) :
    workerProcessVouchers (pre ++ some raw :: post) pd
        = workerProcessVouchers (pre ++ post) pd
      ∧ (workerProcessVouchers (pre ++ some raw :: post) pd).warnings = pd.warnings := by
  have hnone := normalizeVoucher_none_of_bad_date raw hdate
  constructor
  · simp only [workerProcessVouchers, List.foldl_append, List.foldl_cons, hnone]
  · exact workerProcessVouchers_warnings _ _


/-- Witness for the amended C7 at the concrete bad-date voucher. -/
theorem C7_witness :
    workerProcessVouchers ([] ++ some rawBadDateVoucher :: [])
        (workerInitBatch ("f.xml") 0)
      = workerProcessVouchers ([] ++ []) (workerInitBatch ("f.xml") 0) :=
  (C7_bad_date_dropped_silently (workerInitBatch ("f.xml") 0) [] [] rawBadDateVoucher
    rfl).1

/-! ## store/dataStore.ts: mergeData

JS `Map`s are modelled as insertion-ordered association lists: `set` on an
existing key updates in place, otherwise appends; the `Map` constructor on
an entry list replays `set`. -/

/-- Model of `Map.prototype.has`. -/
def jsMapHas {α : Type} (m : List (String × α)) (k : String) : Bool :=
  m.any (fun p => p.1 = k)

/-- Model of `Map.prototype.set`. -/
def jsMapSet {α : Type} (m : List (String × α)) (k : String) (v : α) :
    List (String × α) :=
  if jsMapHas m k then m.map (fun p => if p.1 = k then (k, v) else p)
  else m ++ [(k, v)]

/-- Model of `new Map(entries)`. -/
def jsMapFromEntries {α : Type} (l : List (String × α)) : List (String × α) :=
  l.foldl (fun m p => jsMapSet m p.1 p.2) []

/-- The voucher-deduplication loop of `mergeData`: insert each voucher of
`current.vouchers ++ newData.vouchers` only when its id is not yet present. -/
def voucherDedupFold (vs : List CanonicalVoucher) :
    List (String × CanonicalVoucher) :=
  vs.foldl (fun m v => if jsMapHas m v.id then m else jsMapSet m v.id v) []

/-- `mergeData` from store/dataStore.ts (`new Date()` passed as `now`;
`get().data ?? emptyData` resolution happens at the call site). -/
def mergeData (current newData : ParsedData) (now : JSDate) : ParsedData :=
  { company :=
      match newData.company with
      | some c => some c
      | none => current.company
    ledgers := jsMapFromEntries (current.ledgers ++ newData.ledgers)
    stockItems := jsMapFromEntries (current.stockItems ++ newData.stockItems)
    units := jsMapFromEntries (current.units ++ newData.units)
    vouchers := (voucherDedupFold (current.vouchers ++ newData.vouchers)).map Prod.snd
    importedAt := now
    sourceFiles := (current.sourceFiles ++ newData.sourceFiles).foldl setAdd []
    warnings := current.warnings ++ newData.warnings }

/-- Spec-side deduplication ("union vouchers by identity key, first-seen
wins"): keep each voucher whose id has not appeared earlier in the list. -/
def specDedupKeepFirst : List CanonicalVoucher → List CanonicalVoucher
  | [] => []
  | v :: vs => v :: specDedupKeepFirst (vs.filter (fun w => w.id ≠ v.id))
termination_by l => l.length
decreasing_by
  simp_wf
  exact Nat.lt_succ_of_le (List.length_filter_le _ vs)

theorem specDedupKeepFirst_nil : specDedupKeepFirst [] = [] := by
  rw [specDedupKeepFirst]

theorem specDedupKeepFirst_cons (v : CanonicalVoucher) (vs : List CanonicalVoucher) :
    specDedupKeepFirst (v :: vs)
      = v :: specDedupKeepFirst (vs.filter (fun w => w.id ≠ v.id)) := by
  rw [specDedupKeepFirst]

theorem jsMapHas_append_single {α : Type} (m : List (String × α)) (k k2 : String)
    (v : α) : jsMapHas (m ++ [(k, v)]) k2 = (jsMapHas m k2 || decide (k = k2)) := by
  simp [jsMapHas, List.any_append]

theorem voucherDedupFold_aux (vs : List CanonicalVoucher)
    (m : List (String × CanonicalVoucher)) :
    ((vs.foldl (fun m v => if jsMapHas m v.id then m else jsMapSet m v.id v) m).map
        Prod.snd)
      = m.map Prod.snd
        ++ specDedupKeepFirst (vs.filter (fun v => !(jsMapHas m v.id))) := by
  induction vs generalizing m with
  | nil => simp [specDedupKeepFirst_nil]
  | cons v vs ih =>
    simp only [List.foldl_cons, List.filter_cons]
    by_cases hm : jsMapHas m v.id = true
    · rw [if_pos hm, ih]
      have hcond : (!(jsMapHas m v.id)) = false := by simp [hm]
      rw [hcond]
      simp
    · have hmf : jsMapHas m v.id = false := by
        cases h : jsMapHas m v.id
        · rfl
        · exact absurd h hm
      rw [if_neg hm]
      have hset : jsMapSet m v.id v = m ++ [(v.id, v)] := by
        simp [jsMapSet, hmf]
      rw [hset, ih]
      have hcond : (!(jsMapHas m v.id)) = true := by simp [hmf]
      rw [hcond, if_pos rfl]
      have hfilt : vs.filter (fun w => !(jsMapHas (m ++ [(v.id, v)]) w.id))
          = (vs.filter (fun w => !(jsMapHas m w.id))).filter (fun w => w.id ≠ v.id) := by
        rw [List.filter_filter]
        apply List.filter_congr
        intro w _
        rw [jsMapHas_append_single]
        by_cases hw : w.id = v.id
        · simp [hw]
        · simp [hw, Ne.symm hw]
      rw [hfilt, specDedupKeepFirst_cons]
      simp

theorem specDedupKeepFirst_append_subset (c n : List CanonicalVoucher)
    (hnodup : (c.map (fun v => v.id)).Nodup)
    (hsub : ∀ v ∈ n, v.id ∈ c.map (fun v => v.id)) :
    specDedupKeepFirst (c ++ n) = c := by
  induction c generalizing n with
  | nil =>
    cases n with
    | nil => exact specDedupKeepFirst_nil
    | cons v vs => exact absurd (hsub v (by simp)) (by simp)
  | cons v c2 ih =>
    rw [List.cons_append, specDedupKeepFirst_cons]
    congr 1
    rw [List.filter_append]
    have hc2 : c2.filter (fun w => w.id ≠ v.id) = c2 := by
      apply List.filter_eq_self.mpr
      intro w hw
      simp only [List.map_cons, List.nodup_cons] at hnodup
      have : w.id ∈ c2.map (fun v => v.id) := List.mem_map_of_mem _ hw
      simp only [ne_eq, decide_eq_true_eq]
      intro he
      rw [he] at this
      exact hnodup.1 this
    rw [hc2]
    apply ih
    · simp only [List.map_cons, List.nodup_cons] at hnodup
      exact hnodup.2
    · intro w hw
      rw [List.mem_filter] at hw
      have := hsub w hw.1
      simp only [List.map_cons, List.mem_cons] at this
      rcases this with h | h
      · exact absurd h (by simpa using hw.2)
      · exact h

/-- C4: `mergeData` deduplicates vouchers by id with first-seen winning, and
merging a batch whose vouchers are all already present (the accumulated
dataset having distinct ids) leaves the voucher collection unchanged. -/
theorem C4_mergeData_first_seen_wins (current newData : ParsedData) (now : JSDate) :
    (mergeData current newData now).vouchers
        = specDedupKeepFirst (current.vouchers ++ newData.vouchers)
      ∧ ((current.vouchers.map (fun v => v.id)).Nodup →
          (∀ v ∈ newData.vouchers, v.id ∈ current.vouchers.map (fun v => v.id)) →
          (mergeData current newData now).vouchers = current.vouchers) := by
  have h1 : (mergeData current newData now).vouchers
      = specDedupKeepFirst (current.vouchers ++ newData.vouchers) := by
    show ((voucherDedupFold (current.vouchers ++ newData.vouchers)).map Prod.snd) = _
    rw [voucherDedupFold, voucherDedupFold_aux]
    have : ((current.vouchers ++ newData.vouchers).filter
        (fun v => !(jsMapHas ([] : List (String × CanonicalVoucher)) v.id)))
        = current.vouchers ++ newData.vouchers := by
      apply List.filter_eq_self.mpr
      intro w _
      rfl
    rw [this]
    rfl
  refine ⟨h1, fun hnodup hsub => ?_⟩
  rw [h1]
  exact specDedupKeepFirst_append_subset _ _ hnodup hsub

/-- A concrete accumulated dataset used by the C4 witness. -/
def pdCurrentW : ParsedData :=
  { company := none, ledgers := [], stockItems := [], units := [],
    vouchers := [optionalVoucherW], importedAt := 0, sourceFiles := [],
    warnings := [] }

/-- Witness for C4: re-importing the same voucher is a no-op on the voucher
collection. -/
theorem C4_witness :
    (mergeData pdCurrentW pdCurrentW 5).vouchers = pdCurrentW.vouchers := by
  apply (C4_mergeData_first_seen_wins pdCurrentW pdCurrentW 5).2
  · simp [pdCurrentW]
  · intro v hv
    simp only [pdCurrentW, List.mem_singleton] at hv
    subst hv
    simp [pdCurrentW]

/-! ## xml/sanitizer.ts

The three regex-based passes are modelled as left-to-right scanners over
character lists, reproducing the JS regex semantics (global non-overlapping
matches, lazy dot that cannot cross a line terminator, backtracking-free
equivalents of the deterministic lookaheads). -/

/-- Characters the JS regex `.` does not match. -/
def isLineTerminator (c : Char) : Bool :=
  c = '\n' || c = '\r' || c.toNat = 0x2028 || c.toNat = 0x2029

/-- The lazy `.*?\?>` scan of the declaration regex: find the first `?>`,
failing at a line terminator (which `.` cannot consume) or at the end. -/
def findPIEnd : List Char → Option (List Char)
  | [] => none
  | c :: cs =>
    if c = '?' ∧ cs.head? = some '>' then some cs.tail
    else if isLineTerminator c then none
    else findPIEnd cs

/-- `stripXmlDeclaration` from xml/sanitizer.ts: the anchored replacement
`xml.replace(/^<\?xml\s+.*?\?>\s*/i, "")`. -/
def stripXmlDeclaration (l : List Char) : List Char :=
  match l with
  | '<' :: '?' :: x :: m :: l2 :: rest =>
    if x.toLower = 'x' ∧ m.toLower = 'm' ∧ l2.toLower = 'l' then
      let w := rest.takeWhile isJsWhitespace
      if w.isEmpty then l
      else
        match findPIEnd (rest.drop w.length) with
        | some after => after.dropWhile isJsWhitespace
        | none => l
    else l
  | _ => l

/-- `stripIllegalControlChars` from xml/sanitizer.ts: the global replacement
`xml.replace(/&#([0-9]+);/g, cb)` keeping tab/LF/CR references, deleting
references to other code points below 32, and keeping everything else. -/
def stripIllegalControlChars : List Char → List Char
  | [] => []
  | '&' :: '#' :: cs2 =>
    if (cs2.takeWhile Char.isDigit).isEmpty then
      '&' :: stripIllegalControlChars ('#' :: cs2)
    else if (cs2.drop (cs2.takeWhile Char.isDigit).length).head? = some ';' then
      if digitsToNat (cs2.takeWhile Char.isDigit) = 9
          ∨ digitsToNat (cs2.takeWhile Char.isDigit) = 10
          ∨ digitsToNat (cs2.takeWhile Char.isDigit) = 13 then
        '&' :: '#' :: (cs2.takeWhile Char.isDigit
          ++ ';' :: stripIllegalControlChars
                (cs2.drop (cs2.takeWhile Char.isDigit).length).tail)
      else if digitsToNat (cs2.takeWhile Char.isDigit) < 32 then
        stripIllegalControlChars (cs2.drop (cs2.takeWhile Char.isDigit).length).tail
      else
        '&' :: '#' :: (cs2.takeWhile Char.isDigit
          ++ ';' :: stripIllegalControlChars
                (cs2.drop (cs2.takeWhile Char.isDigit).length).tail)
    else '&' :: stripIllegalControlChars ('#' :: cs2)
  | c :: cs => c :: stripIllegalControlChars cs
termination_by l => l.length
decreasing_by
  all_goals
    simp_wf
    try simp only [List.length_tail, List.length_drop, List.length_cons]
    try omega

/-- The `(?!(?:[a-zA-Z]+|#[0-9]+);)` lookahead of `fixUnescapedAmpersands`,
evaluated after an ampersand (deterministic: the alternatives end at the
first non-letter / non-digit). -/
def ampLookaheadOk (cs : List Char) : Bool :=
  (let ls := cs.takeWhile Char.isAlpha
   !ls.isEmpty && ((cs.drop ls.length).head? = some ';'))
  ||
  (match cs with
   | '#' :: cs2 =>
     let ds := cs2.takeWhile Char.isDigit
     !ds.isEmpty && ((cs2.drop ds.length).head? = some ';')
   | _ => false)

/-- `fixUnescapedAmpersands` from xml/sanitizer.ts: the global replacement
`xml.replace(/&(?!(?:[a-zA-Z]+|#[0-9]+);)/g, "&amp;")`. -/
def fixUnescapedAmpersands : List Char → List Char
  | [] => []
  | c :: cs =>
    if c = '&' then
      if ampLookaheadOk cs then c :: fixUnescapedAmpersands cs
      else '&' :: 'a' :: 'm' :: 'p' :: ';' :: fixUnescapedAmpersands cs
    else c :: fixUnescapedAmpersands cs

/-- `sanitizeXml` from xml/sanitizer.ts: the master pipeline. -/
def sanitizeXml (l : List Char) : List Char :=
  fixUnescapedAmpersands (stripIllegalControlChars (stripXmlDeclaration l))

/-! ## C8: sanitizing already-clean input

The claim's precondition says every ampersand is part of a valid character
or entity reference.  The code's lookahead recognizes only decimal
character references (`&#32;`) and all-letter entity names (`&amp;`); it
does NOT recognize hex character references (`&#x20;`), which are valid in
XML.  `ampsClean` below is the code's notion — strictly narrower than the
claim's — and the counterexample shows the claim fails on clean markup
containing a hex reference, which `fixUnescapedAmpersands` corrupts to
`&amp;#x20;`. -/

/-- Whether an illegal control-character reference starts at the head. -/
def badCtrlRefAt (l : List Char) : Bool :=
  match l with
  | '&' :: '#' :: cs2 =>
    (!(cs2.takeWhile Char.isDigit).isEmpty
        && ((cs2.drop (cs2.takeWhile Char.isDigit).length).head? = some ';'))
      && (!(digitsToNat (cs2.takeWhile Char.isDigit) = 9
              || digitsToNat (cs2.takeWhile Char.isDigit) = 10
              || digitsToNat (cs2.takeWhile Char.isDigit) = 13)
          && digitsToNat (cs2.takeWhile Char.isDigit) < 32)
  | _ => false

/-- No illegal control-character reference anywhere in the list. -/
def noBadCtrlRefs : List Char → Bool
  | [] => true
  | c :: cs => !badCtrlRefAt (c :: cs) && noBadCtrlRefs cs

/-- Whether the position is not an unescaped ampersand. -/
def ampOkAt (l : List Char) : Bool :=
  match l with
  | '&' :: cs => ampLookaheadOk cs
  | _ => true

/-- Every ampersand in the list starts a reference the code's lookahead
recognizes: an all-letter entity name or a decimal character reference.
This is narrower than XML validity — a valid hex reference such as
`&#x20;` fails it. -/
def ampsClean : List Char → Bool
  | [] => true
  | c :: cs => ampOkAt (c :: cs) && ampsClean cs

theorem noBadCtrlRefs_tail {c : Char} {cs : List Char}
    (h : noBadCtrlRefs (c :: cs) = true) : noBadCtrlRefs cs = true := by
  simp only [noBadCtrlRefs, Bool.and_eq_true] at h
  exact h.2

theorem ampsClean_tail {c : Char} {cs : List Char}
    (h : ampsClean (c :: cs) = true) : ampsClean cs = true := by
  simp only [ampsClean, Bool.and_eq_true] at h
  exact h.2

theorem noBadCtrlRefs_suffix {t l : List Char} (hs : t <:+ l)
    (h : noBadCtrlRefs l = true) : noBadCtrlRefs t = true := by
  induction l with
  | nil =>
    rw [List.suffix_nil.mp hs]
    exact h
  | cons c cs ih =>
    rcases List.suffix_cons_iff.mp hs with h1 | h1
    · rw [h1]; exact h
    · exact ih h1 (noBadCtrlRefs_tail h)

theorem ampsClean_suffix {t l : List Char} (hs : t <:+ l)
    (h : ampsClean l = true) : ampsClean t = true := by
  induction l with
  | nil =>
    rw [List.suffix_nil.mp hs]
    exact h
  | cons c cs ih =>
    rcases List.suffix_cons_iff.mp hs with h1 | h1
    · rw [h1]; exact h
    · exact ih h1 (ampsClean_tail h)

theorem findPIEnd_suffix : ∀ {l rest : List Char}, findPIEnd l = some rest → rest <:+ l := by
  intro l
  induction l with
  | nil => intro rest h; exact absurd h (by simp [findPIEnd])
  | cons c cs ih =>
    intro rest h
    rw [findPIEnd] at h
    by_cases h1 : c = '?' ∧ cs.head? = some '>'
    · rw [if_pos h1] at h
      have := Option.some.inj h
      subst this
      exact (List.tail_suffix cs).trans (List.suffix_cons c cs)
    · rw [if_neg h1] at h
      by_cases h2 : isLineTerminator c = true
      · rw [if_pos h2] at h
        exact absurd h (by simp)
      · rw [if_neg h2] at h
        exact (ih h).trans (List.suffix_cons c cs)

theorem stripXmlDeclaration_suffix (l : List Char) : stripXmlDeclaration l <:+ l := by
  unfold stripXmlDeclaration
  split
  · rename_i x m l2 rest
    split
    · rename_i hxml
      by_cases hw : (rest.takeWhile isJsWhitespace).isEmpty
      · rw [if_pos hw]
      · rw [if_neg hw]
        cases hfind : findPIEnd (rest.drop (rest.takeWhile isJsWhitespace).length) with
        | none => exact List.suffix_refl _
        | some after =>
          have h1 : after <:+ rest :=
            (findPIEnd_suffix hfind).trans (List.drop_suffix _ _)
          have h2 : after.dropWhile isJsWhitespace <:+ after :=
            List.dropWhile_suffix _
          have h3 : rest <:+ '<' :: '?' :: x :: m :: l2 :: rest := by
            refine ⟨['<', '?', x, m, l2], rfl⟩
          exact (h2.trans h1).trans h3
    · exact List.suffix_refl _
  · exact List.suffix_refl _

theorem stripIllegalControlChars_cons_generic (c : Char) (cs : List Char)
    (hshape : ¬(c = '&' ∧ ∃ cs2, cs = '#' :: cs2)) :
    stripIllegalControlChars (c :: cs) = c :: stripIllegalControlChars cs := by
  rw [stripIllegalControlChars.eq_def]
  split
  · rename_i heq
    exact absurd heq (by simp)
  · rename_i cs2 heq
    obtain ⟨h1, h2⟩ := List.cons.inj heq
    exact absurd ⟨h1, cs2, h2⟩ hshape
  · rename_i hno heq
    injection heq with h1 h2
    subst h1
    subst h2
    rfl

theorem stripIllegalControlChars_id (l : List Char) (h : noBadCtrlRefs l = true) :
    stripIllegalControlChars l = l := by
  suffices H : ∀ (n : Nat) (l : List Char), l.length ≤ n → noBadCtrlRefs l = true →
      stripIllegalControlChars l = l by
    exact H l.length l le_rfl h
  intro n
  induction n with
  | zero =>
    intro l hl _
    have hnil : l = [] := List.length_eq_zero.mp (Nat.le_zero.mp hl)
    subst hnil
    rw [stripIllegalControlChars]
  | succ n ih =>
    intro l hl h
    rcases l with _ | ⟨c, cs⟩
    · rw [stripIllegalControlChars]
    · by_cases hshape : c = '&' ∧ ∃ cs2, cs = '#' :: cs2
      · obtain ⟨hc, cs2, hcs⟩ := hshape
        subst hc
        subst hcs
        rw [stripIllegalControlChars]
        have hlcs : ('#' :: cs2).length ≤ n := by
          simp only [List.length_cons] at hl ⊢
          omega
        have htail : noBadCtrlRefs ('#' :: cs2) = true := noBadCtrlRefs_tail h
        by_cases hds : (cs2.takeWhile Char.isDigit).isEmpty
        · rw [if_pos hds, ih _ hlcs htail]
        · rw [if_neg hds]
          by_cases hsem :
              (cs2.drop (cs2.takeWhile Char.isDigit).length).head? = some ';'
          · rw [if_pos hsem]
            obtain ⟨t, ht⟩ :
                ∃ t, cs2.drop (cs2.takeWhile Char.isDigit).length = ';' :: t := by
              cases hx : cs2.drop (cs2.takeWhile Char.isDigit).length with
              | nil =>
                rw [hx] at hsem
                exact absurd hsem (by simp)
              | cons a t =>
                rw [hx] at hsem
                simp only [List.head?_cons, Option.some.injEq] at hsem
                subst hsem
                exact ⟨t, rfl⟩
            have hsplit : cs2 = cs2.takeWhile Char.isDigit ++ ';' :: t := by
              obtain ⟨u, hu⟩ := List.takeWhile_prefix (p := Char.isDigit) (l := cs2)
              have hdropu := List.drop_left (cs2.takeWhile Char.isDigit) u
              rw [hu] at hdropu
              rw [ht] at hdropu
              conv_lhs => rw [← hu]
              rw [hdropu]
            have htlen : t.length ≤ n := by
              have hc := congrArg List.length ht
              simp only [List.length_drop, List.length_cons] at hc hl
              omega
            have htcln : noBadCtrlRefs t = true := by
              have h1 := noBadCtrlRefs_suffix
                (List.drop_suffix (cs2.takeWhile Char.isDigit).length cs2)
                (noBadCtrlRefs_tail htail)
              rw [ht] at h1
              exact noBadCtrlRefs_tail h1
            have hrec := ih t htlen htcln
            have hbad : badCtrlRefAt ('&' :: '#' :: cs2) = false := by
              have h0 := h
              rw [noBadCtrlRefs] at h0
              simp only [Bool.and_eq_true] at h0
              simpa using h0.1
            by_cases hcode : digitsToNat (cs2.takeWhile Char.isDigit) = 9
                ∨ digitsToNat (cs2.takeWhile Char.isDigit) = 10
                ∨ digitsToNat (cs2.takeWhile Char.isDigit) = 13
            · rw [if_pos hcode, ht]
              simp only [List.tail_cons]
              rw [hrec, ← hsplit]
            · rw [if_neg hcode]
              have hge : ¬ digitsToNat (cs2.takeWhile Char.isDigit) < 32 := by
                intro hlt
                have hbadtrue : badCtrlRefAt ('&' :: '#' :: cs2) = true := by
                  rw [badCtrlRefAt]
                  push_neg at hcode
                  simp [hds, hsem, hlt, hcode.1, hcode.2.1, hcode.2.2]
                rw [hbadtrue] at hbad
                exact absurd hbad (by simp)
              rw [if_neg hge, ht]
              simp only [List.tail_cons]
              rw [hrec, ← hsplit]
          · rw [if_neg hsem, ih _ hlcs htail]
      · rw [stripIllegalControlChars_cons_generic c cs hshape]
        have hlcs : cs.length ≤ n := by
          simp only [List.length_cons] at hl
          omega
        rw [ih cs hlcs (noBadCtrlRefs_tail h)]

theorem fixUnescapedAmpersands_id : ∀ (l : List Char),
    ampsClean l = true → fixUnescapedAmpersands l = l := by
  intro l
  induction l with
  | nil => intro _; rfl
  | cons c cs ih =>
    intro h
    have htail := ampsClean_tail h
    rw [fixUnescapedAmpersands]
    by_cases hc : c = '&'
    · rw [if_pos hc]
      have hok : ampLookaheadOk cs = true := by
        subst hc
        simp only [ampsClean, ampOkAt, Bool.and_eq_true] at h
        exact h.1
      rw [if_pos hok, ih htail]
    · rw [if_neg hc, ih htail]

/-- C8 counterexample: `<A>&#x20;</A>` is clean markup in the claim's sense
(well-formed, its only ampersand starts the valid hex character reference
`&#x20;`, and it contains no references to code points 1–31), and it has no
declaration header, so the claim demands that `sanitizeXml` return it
unchanged; instead the ampersand-escaping pass, whose lookahead has no hex
alternative, rewrites it to `<A>&amp;#x20;</A>`. -/
theorem C8_counterexample :
    stripXmlDeclaration (("<A>&#x20;</A>").toList) = ("<A>&#x20;</A>").toList
      ∧ sanitizeXml (("<A>&#x20;</A>").toList) = ("<A>&amp;#x20;</A>").toList
      ∧ sanitizeXml (("<A>&#x20;</A>").toList) ≠ ("<A>&#x20;</A>").toList := by
  have hdecl : stripXmlDeclaration (("<A>&#x20;</A>").toList)
      = ("<A>&#x20;</A>").toList := by decide
  have hctrl : stripIllegalControlChars (("<A>&#x20;</A>").toList)
      = ("<A>&#x20;</A>").toList :=
    stripIllegalControlChars_id _ (by decide)
  have hfix : fixUnescapedAmpersands (("<A>&#x20;</A>").toList)
      = ("<A>&amp;#x20;</A>").toList := by decide
  have hsan : sanitizeXml (("<A>&#x20;</A>").toList) = ("<A>&amp;#x20;</A>").toList := by
    unfold sanitizeXml
    rw [hdecl, hctrl, hfix]
  refine ⟨hdecl, hsan, ?_⟩
  rw [hsan]
  decide

/-- C8 amended: on markup that is clean in the code's sense — no decimal
character references to code points below 32 other than 9/10/13, and every
ampersand followed by an all-letter entity name or a decimal character
reference (hex references excluded: the escaping regex does not recognize
them) — `sanitizeXml` performs exactly the declaration strip: the result is
`stripXmlDeclaration` of the input, which is a character-for-character
suffix of the input. -/
theorem C8_sanitize_clean_is_declaration_strip (l : List Char)
    (hctrl : noBadCtrlRefs l = true) (hamp : ampsClean l = true) :
    sanitizeXml l = stripXmlDeclaration l ∧ stripXmlDeclaration l <:+ l := by
  have hsuf := stripXmlDeclaration_suffix l
  have h1 := noBadCtrlRefs_suffix hsuf hctrl
  have h2 := ampsClean_suffix hsuf hamp
  unfold sanitizeXml
  rw [stripIllegalControlChars_id _ h1, fixUnescapedAmpersands_id _ h2]
  exact ⟨rfl, hsuf⟩

/-- Witness for C8 at a concrete clean document with a declaration. -/
theorem C8_witness :
    sanitizeXml (("<?xml version=1.0 ?><A>&amp; &#10; ok</A>").toList)
      = stripXmlDeclaration (("<?xml version=1.0 ?><A>&amp; &#10; ok</A>").toList) :=
  (C8_sanitize_clean_is_declaration_strip _ (by decide) (by decide)).1

end MkCycles
